import Mathlib

/-!
Verification of the size-based split-check subsystem
(`src/raftstore/coprocessor/split_check/size.rs`).

The Rust code consists of a `Checker` (a stateful per-scan accumulator
with two operations, `on_kv` and `split_key`) and a `SizeCheckObserver`
(the per-region hook `add_checker` that probes the approximate size,
publishes it, records it in a histogram and conditionally registers a
`Checker`).  Both are embedded below as pure Lean functions; mutation is
expressed by returning the updated state.

Sizes are `u64` byte counts in the source; they are modelled as `Nat`
(the accumulated byte counts of a single region scan stay far below
2^64, so wrap-around is not modelled).  Keys are byte sequences,
modelled as `List Nat`.
-/

/-- Modelled from the spec: `KeyEntry` is defined outside this file
(`raftstore::store::KeyEntry`).  Per the spec, a key entry carries the
raw key bytes and a logical size (key length + value length + a small
fixed per-entry overhead); only the key and the size are consulted by
the size checker, so the size is kept abstract as a field
(`entry_size`, the value of the Rust method `entry_size()`). -/
structure KeyEntry where
  key : List Nat
  entry_size : Nat
deriving Repr, DecidableEq

/-- Embedding of `struct Checker` from `size.rs`: thresholds snapshot,
the byte accumulator and the latched split key. -/
structure Checker where
  max_size : Nat
  split_size : Nat
  current_size : Nat
  split_key : Option (List Nat)
deriving Repr, DecidableEq

namespace Checker

/-- Embedding of `Checker::new`: both counters empty, thresholds stored. -/
def new (max_size split_size : Nat) : Checker :=
  { max_size := max_size
    split_size := split_size
    current_size := 0
    split_key := none }

/-- Embedding of `Checker::on_kv`: add the entry size to the
accumulator, latch the key when the accumulator first strictly exceeds
`split_size`, and return whether the accumulator strictly exceeds
`max_size`.  The Rust method mutates `self` and returns `bool`; here the
updated state is returned alongside the boolean. -/
def on_kv (c : Checker) (entry : KeyEntry) : Bool × Checker :=
  let cur := c.current_size + entry.entry_size
  let sk := if cur > c.split_size && c.split_key.isNone
            then some entry.key else c.split_key
  (decide (cur > c.max_size),
   { c with current_size := cur, split_key := sk })

/-- Embedding of `Checker::split_key` (the method; named `take_split_key`
because the field is already called `split_key`): when
`current_size > max_size` it removes and returns the latched key
(`Option::take`), otherwise it returns `None` and leaves the state
alone. -/
def take_split_key (c : Checker) : Option (List Nat) × Checker :=
  if c.current_size > c.max_size
  then (c.split_key, { c with split_key := none })
  else (none, c)

/-- Feeding a key stream through `on_kv` in order (the scan driver's
loop over the region's keys, run to completion). -/
def scan (c : Checker) : List KeyEntry → Checker
  | [] => c
  | e :: rest => Checker.scan (c.on_kv e).2 rest

end Checker

/-- Total logical size of a key stream. -/
def sumSizes : List KeyEntry → Nat
  | [] => 0
  | e :: rest => e.entry_size + sumSizes rest

/-- Reference function for the latch-position property: the key of the
first entry of the stream whose cumulative contribution makes the
accumulator (started at `acc`) strictly exceed `split_size`. -/
def firstOverKey (acc split_size : Nat) : List KeyEntry → Option (List Nat)
  | [] => none
  | e :: rest =>
    if acc + e.entry_size > split_size then some e.key
    else firstOverKey (acc + e.entry_size) split_size rest

/-- Outbound messages of the observer that this file models: the
approximate-size report sent on the retryable channel. -/
inductive Msg where
  | RegionApproximateSize (region_id : Nat) (size : Nat)
deriving Repr, DecidableEq

/-- Embedding of `struct SizeCheckObserver`: the configuration snapshot.
The channel handle is modelled separately (see
`SizeCheckObserver.add_checker`). -/
structure SizeCheckObserver where
  region_max_size : Nat
  split_size : Nat
deriving Repr, DecidableEq

/-- Observable outcome of one `add_checker` call: the message given to
`ch.try_send` (if any), whether that send failed, the value recorded in
`REGION_SIZE_HISTOGRAM` (if any), and the `Checker` registered with the
scan-driver host (if any). -/
structure AddCheckerResult where
  sentMsg : Option Msg
  sendFailed : Bool
  histogramObs : Option Nat
  registered : Option Checker
deriving Repr, DecidableEq

/-- Embedding of `SizeCheckObserver::add_checker`.  The approximate-size
probe (`util::get_region_approximate_size`), the channel and the
histogram live outside this file, so the probe outcome is passed in as
an `Except` value and the channel's disposition as a boolean `sendOk`;
the side effects become fields of the result.  On probe failure a fresh
`Checker` is registered and nothing else happens; on probe success the
size message is sent (a failed send is only noted), the histogram is
recorded, and a `Checker` is registered exactly when
`size >= region_max_size`.  The function is total: no branch propagates
an error. -/
def SizeCheckObserver.add_checker (o : SizeCheckObserver) (region_id : Nat)
    (probe : Except String Nat) (sendOk : Bool) : AddCheckerResult :=
  match probe with
  | .error _ =>
    { sentMsg := none
      sendFailed := false
      histogramObs := none
      registered := some (Checker.new o.region_max_size o.split_size) }
  | .ok region_size =>
    { sentMsg := some (.RegionApproximateSize region_id region_size)
      sendFailed := !sendOk
      histogramObs := some region_size
      registered :=
        if region_size ≥ o.region_max_size
        then some (Checker.new o.region_max_size o.split_size)
        else none }

/-! ## Helper lemmas about scans -/

theorem on_kv_current (c : Checker) (e : KeyEntry) :
    (c.on_kv e).2.current_size = c.current_size + e.entry_size := rfl

theorem on_kv_max (c : Checker) (e : KeyEntry) :
    (c.on_kv e).2.max_size = c.max_size := rfl

theorem on_kv_split_size (c : Checker) (e : KeyEntry) :
    (c.on_kv e).2.split_size = c.split_size := rfl

theorem scan_max (ks : List KeyEntry) (c : Checker) :
    (c.scan ks).max_size = c.max_size := by
  induction ks generalizing c with
  | nil => rfl
  | cons e rest ih => simpa [Checker.scan, on_kv_max] using ih (c.on_kv e).2

theorem scan_split_size (ks : List KeyEntry) (c : Checker) :
    (c.scan ks).split_size = c.split_size := by
  induction ks generalizing c with
  | nil => rfl
  | cons e rest ih => simpa [Checker.scan, on_kv_split_size] using ih (c.on_kv e).2

theorem scan_current (ks : List KeyEntry) (c : Checker) :
    (c.scan ks).current_size = c.current_size + sumSizes ks := by
  induction ks generalizing c with
  | nil => simp [Checker.scan, sumSizes]
  | cons e rest ih =>
    simp [Checker.scan, sumSizes]
    rw [ih]
    simp [on_kv_current]
    omega

theorem on_kv_keeps_split_key (c : Checker) (e : KeyEntry) (k : List Nat)
    (h : c.split_key = some k) : ((c.on_kv e).2).split_key = some k := by
  simp [Checker.on_kv, h]

theorem scan_keeps_split_key (ks : List KeyEntry) (c : Checker) (k : List Nat)
    (h : c.split_key = some k) : (c.scan ks).split_key = some k := by
  induction ks generalizing c with
  | nil => simpa [Checker.scan] using h
  | cons e rest ih =>
    simpa [Checker.scan] using ih (c.on_kv e).2 (on_kv_keeps_split_key c e k h)

theorem scan_split_key_of_none (ks : List KeyEntry) (c : Checker)
    (h : c.split_key = none) :
    (c.scan ks).split_key = firstOverKey c.current_size c.split_size ks := by
  induction ks generalizing c with
  | nil => simpa [Checker.scan, firstOverKey] using h
  | cons e rest ih =>
    by_cases hgt : c.current_size + e.entry_size > c.split_size
    · have hlatch : ((c.on_kv e).2).split_key = some e.key := by
        simp [Checker.on_kv, h, hgt]
      simp only [Checker.scan, firstOverKey, if_pos hgt]
      exact scan_keeps_split_key rest (c.on_kv e).2 e.key hlatch
    · have hnone : ((c.on_kv e).2).split_key = none := by
        simp [Checker.on_kv, h, hgt]
      simp only [Checker.scan, firstOverKey, if_neg hgt]
      have := ih (c.on_kv e).2 hnone
      rwa [on_kv_current, on_kv_split_size] at this

theorem firstOverKey_none_of_le (ks : List KeyEntry) (acc s : Nat)
    (h : acc + sumSizes ks ≤ s) : firstOverKey acc s ks = none := by
  induction ks generalizing acc with
  | nil => rfl
  | cons e rest ih =>
    have h1 : ¬ acc + e.entry_size > s := by
      simp [sumSizes] at h; omega
    have h2 : acc + e.entry_size + sumSizes rest ≤ s := by
      simp [sumSizes] at h; omega
    simp [firstOverKey, h1, ih (acc + e.entry_size) h2]

theorem sumSizes_take_succ (ks : List KeyEntry) (i : Nat) (h : i < ks.length) :
    sumSizes (ks.take (i + 1))
      = sumSizes (ks.take i) + ks[i].entry_size := by
  induction ks generalizing i with
  | nil => simp at h
  | cons e rest ih =>
    cases i with
    | zero => simp [sumSizes]
    | succ j =>
      have hj : j < rest.length := by simpa using h
      simp only [List.take_succ_cons, sumSizes, List.getElem_cons_succ]
      rw [ih j hj]
      omega

theorem on_kv_monotone (c : Checker) (e : KeyEntry) :
    c.current_size ≤ (c.on_kv e).2.current_size := by
  rw [on_kv_current]; omega

theorem scan_monotone (ks : List KeyEntry) (c : Checker) :
    c.current_size ≤ (c.scan ks).current_size := by
  rw [scan_current]; omega

/-! ## Claims -/

/-- C1.  Release gate: for any finished key stream, `split_key()`
returns a key iff the final `current_size` strictly exceeds `max_size`
and a key was latched during the scan; in particular a scan that ends
with `current_size ≤ max_size` surfaces no key even when a candidate was
latched. -/
theorem checker_release_gate (m s : Nat) (ks : List KeyEntry) :
    ((((Checker.new m s).scan ks).take_split_key).1.isSome = true ↔
      ((Checker.new m s).scan ks).current_size > m ∧
        ((Checker.new m s).scan ks).split_key.isSome = true) := by
  have hm : ((Checker.new m s).scan ks).max_size = m := by
    rw [scan_max]; rfl
  constructor
  · intro h
    by_cases hgt : ((Checker.new m s).scan ks).current_size > m
    · refine ⟨hgt, ?_⟩
      simpa [Checker.take_split_key, hm, hgt] using h
    · simp [Checker.take_split_key, hm, hgt] at h
  · rintro ⟨hgt, hlatch⟩
    simpa [Checker.take_split_key, hm, hgt] using hlatch

/-- C2.  Stop signal: `on_kv` adds the entry's logical size to
`current_size` and returns true iff the updated `current_size` strictly
exceeds `max_size`. -/
theorem checker_stop_signal (c : Checker) (e : KeyEntry) :
    (c.on_kv e).2.current_size = c.current_size + e.entry_size ∧
      ((c.on_kv e).1 = true ↔ (c.on_kv e).2.current_size > c.max_size) := by
  refine ⟨rfl, ?_⟩
  simp [Checker.on_kv]

/-- C3.  Latch position: if `split_key` is present at scan end then it
is the key of the first entry of the input whose cumulative contribution
made `current_size` strictly exceed `split_size`. -/
theorem checker_latch_position (m s : Nat) (ks : List KeyEntry) (k : List Nat)
    (h : ((Checker.new m s).scan ks).split_key = some k) :
    firstOverKey 0 s ks = some k := by
  have := scan_split_key_of_none ks (Checker.new m s) rfl
  rw [h] at this
  simpa [Checker.new] using this.symm

/-- Witness for C3 at a concrete stream: with `split_size = 5` the
second entry pushes the accumulator from 3 to 7, so its key is latched
and is the first over the threshold. -/
theorem checker_latch_position_witness :
    firstOverKey 0 5 [⟨[97], 3⟩, ⟨[98], 4⟩] = some [98] :=
  checker_latch_position 10 5 [⟨[97], 3⟩, ⟨[98], 4⟩] [98] (by decide)

/-- C4.  Equal thresholds: with `max_size = split_size = T` and positive
entry sizes, the first `on_kv` call whose entry pushes the accumulator
strictly past `T` both latches that entry's key and returns true, and
`split_key()` on the resulting state returns a key. -/
theorem checker_equal_thresholds (T : Nat) (ks : List KeyEntry) (i : Nat)
    (hi : i < ks.length)
    (hpos : ∀ e ∈ ks, 0 < e.entry_size)
    (hle : sumSizes (ks.take i) ≤ T)
    (hgt : sumSizes (ks.take (i + 1)) > T) :
    (((Checker.new T T).scan (ks.take i)).on_kv ks[i]).1 = true ∧
      (((Checker.new T T).scan (ks.take i)).on_kv ks[i]).2.split_key
        = some ks[i].key ∧
      (((((Checker.new T T).scan (ks.take i)).on_kv
          ks[i]).2).take_split_key).1.isSome = true := by
  set c := (Checker.new T T).scan (ks.take i) with hc
  have hcur : c.current_size = sumSizes (ks.take i) := by
    rw [hc, scan_current]; simp [Checker.new]
  have hmax : c.max_size = T := by rw [hc, scan_max]; rfl
  have hsplit : c.split_size = T := by rw [hc, scan_split_size]; rfl
  have hnone : c.split_key = none := by
    rw [hc, scan_split_key_of_none (ks.take i) (Checker.new T T) rfl]
    exact firstOverKey_none_of_le (ks.take i) 0 T (by simpa [Checker.new] using hle)
  have hsum := sumSizes_take_succ ks i hi
  have hover : c.current_size + ks[i].entry_size > T := by
    rw [hcur]; omega
  refine ⟨?_, ?_, ?_⟩
  · simp [Checker.on_kv, hmax]
    omega
  · simp [Checker.on_kv, hsplit, hnone, hover]
  · have h2 : ((c.on_kv ks[i]).2).current_size > T := by
      rw [on_kv_current]; exact hover
    have h3 : ((c.on_kv ks[i]).2).max_size = T := by rw [on_kv_max]; exact hmax
    have h4 : ((c.on_kv ks[i]).2).split_key = some ks[i].key := by
      simp [Checker.on_kv, hsplit, hnone, hover]
    simp [Checker.take_split_key, h3, h2, h4]

/-- Witness for C4: seven 4-byte entries against `max = split = 24`; the
seventh entry takes the accumulator from 24 to 28, latches its key,
stops the scan, and `split_key()` yields a key. -/
theorem checker_equal_thresholds_witness :
    ((((Checker.new 24 24).scan ((List.replicate 7 (⟨[120], 4⟩ : KeyEntry)).take 6)).on_kv
        ((List.replicate 7 (⟨[120], 4⟩ : KeyEntry))[6])).1 = true ∧
      (((Checker.new 24 24).scan ((List.replicate 7 (⟨[120], 4⟩ : KeyEntry)).take 6)).on_kv
        ((List.replicate 7 (⟨[120], 4⟩ : KeyEntry))[6])).2.split_key
        = some ((List.replicate 7 (⟨[120], 4⟩ : KeyEntry))[6]).key ∧
      ((((((Checker.new 24 24).scan ((List.replicate 7 (⟨[120], 4⟩ : KeyEntry)).take 6)).on_kv
        ((List.replicate 7 (⟨[120], 4⟩ : KeyEntry))[6])).2)).take_split_key).1.isSome
        = true) :=
  checker_equal_thresholds 24 (List.replicate 7 ⟨[120], 4⟩) 6 (by decide)
    (by decide) (by decide) (by decide)

/-- C9.  Monotonicity: `current_size` starts at zero and never decreases
across `on_kv` calls (single step or any further stream). -/
theorem checker_monotonicity (m s : Nat) (c : Checker) (e : KeyEntry)
    (ks : List KeyEntry) :
    (Checker.new m s).current_size = 0 ∧
      c.current_size ≤ (c.on_kv e).2.current_size ∧
      c.current_size ≤ (c.scan ks).current_size :=
  ⟨rfl, on_kv_monotone c e, scan_monotone ks c⟩

/-- C10.  Reading the split key consumes it: when `current_size >
max_size` and a key is latched, the first `split_key()` call returns the
key and removes it from the state, so a second call returns none even
though `current_size` is unchanged. -/
theorem checker_split_key_take (c : Checker) (k : List Nat)
    (hgt : c.current_size > c.max_size) (hk : c.split_key = some k) :
    (c.take_split_key).1 = some k ∧
      (c.take_split_key).2.split_key = none ∧
      (c.take_split_key).2.current_size = c.current_size ∧
      ((c.take_split_key).2.take_split_key).1 = none := by
  have h2 : (c.take_split_key).2 = { c with split_key := none } := by
    simp [Checker.take_split_key, hgt]
  refine ⟨by simp [Checker.take_split_key, hgt, hk], ?_, ?_, ?_⟩
  · rw [h2]
  · rw [h2]
  · rw [h2]; simp [Checker.take_split_key]

/-- Witness for C10 at a concrete latched state. -/
theorem checker_split_key_take_witness :
    ((⟨0, 0, 1, some [97]⟩ : Checker).take_split_key).1 = some [97] ∧
      ((⟨0, 0, 1, some [97]⟩ : Checker).take_split_key).2.split_key = none ∧
      ((⟨0, 0, 1, some [97]⟩ : Checker).take_split_key).2.current_size = 1 ∧
      (((⟨0, 0, 1, some [97]⟩ : Checker).take_split_key).2.take_split_key).1 = none :=
  checker_split_key_take ⟨0, 0, 1, some [97]⟩ [97] (by decide) (by decide)

/-- C5 counterexample.  The claim says `split_key` never clears across
any sequence of `on_kv` and `split_key()` calls, but the method uses
`Option::take`: after latching `[97]`, a `split_key()` call clears the
field, and a later `on_kv` latches a second key — a second
absent-to-present transition. -/
theorem checker_single_latch_cex :
    (((Checker.new 0 0).on_kv ⟨[97], 1⟩).2).split_key = some [97] ∧
      ((((Checker.new 0 0).on_kv ⟨[97], 1⟩).2).take_split_key).2.split_key = none ∧
      ((((((Checker.new 0 0).on_kv ⟨[97], 1⟩).2).take_split_key).2).on_kv
        ⟨[98], 1⟩).2.split_key = some [98] := by
  decide

/-- C5 (amended).  Across `on_kv` calls only (no intervening
`split_key()` reads), `split_key` never clears — once set, every later
`on_kv` and every further scanned stream keeps the same key, so it is
set at most once — and it is set only when the updated `current_size`
strictly exceeds `split_size` and no prior key has set it; a
`split_key()` call, however, removes the latched key. -/
theorem checker_single_latch (c : Checker) (e : KeyEntry) (ks : List KeyEntry) :
    (∀ k, c.split_key = some k →
      ((c.on_kv e).2).split_key = some k ∧ (c.scan ks).split_key = some k) ∧
    (c.split_key = none →
      ((c.on_kv e).2).split_key = c.split_key ∨
        (((c.on_kv e).2).split_key = some e.key ∧
          (c.on_kv e).2.current_size > c.split_size)) := by
  constructor
  · intro k hk
    exact ⟨on_kv_keeps_split_key c e k hk, scan_keeps_split_key ks c k hk⟩
  · intro hn
    by_cases hgt : c.current_size + e.entry_size > c.split_size
    · right
      constructor
      · simp [Checker.on_kv, hn, hgt]
      · rw [on_kv_current]; exact hgt
    · left
      simp [Checker.on_kv, hn, hgt]

/-- Witness for C5 (amended) at a concrete latched state: the stored key
survives both a single `on_kv` and a further scan. -/
theorem checker_single_latch_witness :
    (((⟨5, 5, 0, some [97]⟩ : Checker).on_kv ⟨[98], 1⟩).2).split_key = some [97] ∧
      ((⟨5, 5, 0, some [97]⟩ : Checker).scan [⟨[98], 1⟩]).split_key = some [97] :=
  (checker_single_latch ⟨5, 5, 0, some [97]⟩ ⟨[98], 1⟩ [⟨[98], 1⟩]).1 [97] rfl

/-- C6.  Probe failure: `add_checker` registers a fresh `Checker` built
from the current `region_max_size` and split size, sends no message,
records nothing in the histogram, and returns. -/
theorem observer_probe_failure (o : SizeCheckObserver) (region_id : Nat)
    (err : String) (sendOk : Bool) :
    o.add_checker region_id (.error err) sendOk =
      { sentMsg := none
        sendFailed := false
        histogramObs := none
        registered := some (Checker.new o.region_max_size o.split_size) } := rfl

/-- C7.  Probe success: `add_checker` sends the
`RegionApproximateSize` message with the region id and size, records the
size in the histogram, and registers a `Checker` exactly when
`size >= region_max_size`. -/
theorem observer_probe_success (o : SizeCheckObserver) (region_id size : Nat)
    (sendOk : Bool) :
    (o.add_checker region_id (.ok size) sendOk).sentMsg
        = some (.RegionApproximateSize region_id size) ∧
      (o.add_checker region_id (.ok size) sendOk).histogramObs = some size ∧
      ((o.add_checker region_id (.ok size) sendOk).registered.isSome = true ↔
        size ≥ o.region_max_size) := by
  refine ⟨rfl, rfl, ?_⟩
  by_cases h : size ≥ o.region_max_size <;>
    simp [SizeCheckObserver.add_checker, h]

/-- C8.  Channel resilience: on probe success a failed send is only
recorded as a failure; the histogram observation and the registration
decision are identical to the successful-send run, and `add_checker`
still returns (it is a total function, so no error propagates). -/
theorem observer_channel_resilience (o : SizeCheckObserver)
    (region_id size : Nat) :
    (o.add_checker region_id (.ok size) false).sendFailed = true ∧
      (o.add_checker region_id (.ok size) false).histogramObs
        = (o.add_checker region_id (.ok size) true).histogramObs ∧
      (o.add_checker region_id (.ok size) false).registered
        = (o.add_checker region_id (.ok size) true).registered ∧
      (o.add_checker region_id (.ok size) false).histogramObs = some size :=
  ⟨rfl, rfl, rfl, rfl⟩
